import Mathlib

/-!
Shallow embedding of `scripts/validate_boomi_xml.py`: a CI validator for
Boomi process XML files.  XML documents are modelled as an element tree
(tag, attribute list, children); every function of the script that the
claims touch is translated here, keeping the Python names.
-/

namespace BoomiValidate

mutual

/-- An XML element: tag name, attribute mapping (association list, first
binding wins as in an XML attribute map), and child elements in document
order.  The child list is the sibling inductive `XForest` (the usual
workaround for a nested `List XElem`, isomorphic to it). -/
inductive XElem : Type where
  | mk : String → List (String × String) → XForest → XElem

/-- A list of sibling XML elements in document order. -/
inductive XForest : Type where
  | nil : XForest
  | cons : XElem → XForest → XForest

end

/-- Build a child forest from a list of elements. -/
def forestOf : List XElem → XForest
  | [] => .nil
  | c :: cs => .cons c (forestOf cs)

mutual

/-- Decidable equality of elements (hand-rolled: `deriving` does not
handle the mutual pair). -/
def decEqXElem : (a b : XElem) → Decidable (a = b)
  | .mk t1 a1 c1, .mk t2 a2 c2 =>
      if ht : t1 = t2 then
        if ha : a1 = a2 then
          match decEqXForest c1 c2 with
          | isTrue hc => isTrue (by rw [ht, ha, hc])
          | isFalse hc => isFalse (by intro h; injection h with h1 h2 h3; exact hc h3)
        else isFalse (by intro h; injection h with h1 h2 h3; exact ha h2)
      else isFalse (by intro h; injection h with h1 h2 h3; exact ht h1)

/-- Decidable equality of forests. -/
def decEqXForest : (a b : XForest) → Decidable (a = b)
  | .nil, .nil => isTrue rfl
  | .nil, .cons _ _ => isFalse (by intro h; exact XForest.noConfusion h)
  | .cons _ _, .nil => isFalse (by intro h; exact XForest.noConfusion h)
  | .cons x xs, .cons y ys =>
      match decEqXElem x y, decEqXForest xs ys with
      | isTrue h1, isTrue h2 => isTrue (by rw [h1, h2])
      | isFalse h1, _ => isFalse (by intro h; injection h with h1b h2b; exact h1 h1b)
      | isTrue _, isFalse h2 => isFalse (by intro h; injection h with h1b h2b; exact h2 h2b)

end

instance : DecidableEq XElem := decEqXElem

instance : DecidableEq XForest := decEqXForest

/-- Tag name of an element. -/
def XElem.tag : XElem → String
  | .mk t _ _ => t

/-- Attributes of an element. -/
def XElem.attrs : XElem → List (String × String)
  | .mk _ a _ => a

/-- Children of an element, in document order. -/
def XElem.children : XElem → XForest
  | .mk _ _ c => c

/-- Attribute lookup, `elem.get(key)` in lxml: `none` when the attribute is
absent. -/
def XElem.get (e : XElem) (k : String) : Option String :=
  (e.attrs.find? (fun p => p.1 = k)).map Prod.snd

mutual

/-- All elements of the subtree rooted at `e`, in document (preorder)
order, `e` itself first. -/
def subtreeElems : XElem → List XElem
  | .mk t a cs => .mk t a cs :: subtreeForest cs

/-- All elements of a forest of subtrees, in document (preorder) order. -/
def subtreeForest : XForest → List XElem
  | .nil => []
  | .cons c cs => subtreeElems c ++ subtreeForest cs

end

/-- The proper descendants of `root` in document order: what the XPath
descendant axis `.//` enumerates when evaluated at `root`. -/
def descendantElems (root : XElem) : List XElem :=
  subtreeForest root.children

/-- Python `str.strip()`: drop leading and trailing whitespace, modelled
character-wise. -/
def strip (s : String) : String :=
  String.mk (((s.toList.dropWhile Char.isWhitespace).reverse.dropWhile
    Char.isWhitespace).reverse)

/-- Python `str.lower()`, modelled character-wise (the identifiers and
labels involved are ASCII). -/
def lowerStr (s : String) : String :=
  String.mk (s.toList.map Char.toLower)

/-- Python string truthiness for `a or b` on an optional string: an absent
or empty string falls through to `b`. -/
def pyOr (a : Option String) (b : String) : String :=
  match a with
  | some s => if s = "" then b else s
  | none => b

/-- `shape_label`: the `userlabel` attribute, falling back to `label` when
`userlabel` is absent or empty (Python `or`), then to the empty string,
stripped of surrounding whitespace. -/
def shape_label (e : XElem) : String :=
  strip (pyOr (e.get "userlabel") (pyOr (e.get "label") ""))

/-- `needle in hay` on Python strings: substring containment. -/
def strContains (hay needle : String) : Bool :=
  hay.toList.tails.any (fun t => needle.toList.isPrefixOf t)

/-- The elements the XPath `.//shape[@shapetype='returndocuments']`
selects from `root`: proper descendants tagged `shape` whose `shapetype`
attribute equals `returndocuments`, in document order. -/
def returnDocShapes (root : XElem) : List XElem :=
  (descendantElems root).filter
    (fun e => e.tag == "shape" && e.get "shapetype" == some "returndocuments")

/-- Success message of rule 1. -/
def r1OkMsg (lbl : String) : String :=
  "✅ Rule 1 OK: found returndocuments shape labeled \"" ++ lbl ++ "\"."

/-- Failure message of rule 1 when candidate shapes were found. -/
def r1FoundLabelsMsg (cands : List String) : String :=
  "❌ Rule 1 FAIL: returndocuments shape found, but none labeled with \x27Error\x27. "
    ++ "Found labels: " ++ String.intercalate ", " cands

/-- Failure message of rule 1 when no candidate shape exists. -/
def r1NoShapeMsg : String :=
  "❌ Rule 1 FAIL: no returndocuments shape found."

/-- The candidate label recorded for a shape: its label, or the
`(no label)` placeholder when blank. -/
def candLabel (s : XElem) : String :=
  if shape_label s = "" then "(no label)" else shape_label s

/-- The loop of `rule_error_handling`: walk the selected shapes in
document order accumulating candidate labels (`acc`, most recent first),
returning success at the first label containing `error` case-insensitively. -/
def ruleErrorGo : List XElem → List String → Bool × String
  | [], acc =>
      if acc = [] then (false, r1NoShapeMsg)
      else (false, r1FoundLabelsMsg acc.reverse)
  | s :: rest, acc =>
      let lbl := shape_label s
      if strContains (lowerStr lbl) "error" then (true, r1OkMsg lbl)
      else ruleErrorGo rest (candLabel s :: acc)

/-- `rule_error_handling`: passes when some `returndocuments` shape has a
label containing `error` case-insensitively. -/
def rule_error_handling (root : XElem) : Bool × String :=
  ruleErrorGo (returnDocShapes root) []

/-- `BLOCKLIST`: the fixed set of known-bad component identifiers. -/
def BLOCKLIST : List String :=
  [ "ab12cd34-5678-90ef-ghij-klmnopqrstuv"
  , "ff00aa11-2233-4455-6677-889900bbccdd"
  , "151411ac-6724-21ae-giz-00000000azz1a"
  , "12345678-9abc-def0-1234-56789abcdef0" ]

/-- The elements the XPath `.//shape[@componentId]` selects from `root`:
proper descendants tagged `shape` carrying a `componentId` attribute, in
document order. -/
def cidShapes (root : XElem) : List XElem :=
  (descendantElems root).filter
    (fun e => e.tag == "shape" && (e.get "componentId").isSome)

/-- The componentId a shape is judged by:
`(shape.get("componentId") or "").strip()`. -/
def cidOf (e : XElem) : String :=
  strip (pyOr (e.get "componentId") "")

/-- The `hits` list of `rule_no_blocklisted_components`: the
(identifier, label) pair of every selected shape whose stripped
componentId is blocklisted, in document order. -/
def hitsOf (root : XElem) : List (String × String) :=
  (cidShapes root).filterMap
    (fun e => if cidOf e ∈ BLOCKLIST then some (cidOf e, shape_label e) else none)

/-- The deduplication loop: drop every pair already in `seen`, keeping the
first occurrence of each remaining pair in order. -/
def dedupFirst : List (String × String) → List (String × String) → List (String × String)
  | [], _ => []
  | p :: rest, seen =>
      if p ∈ seen then dedupFirst rest seen
      else p :: dedupFirst rest (p :: seen)

/-- Formatting of one hit: `cid ("label")`, or the bare identifier when
the label is blank. -/
def fmtHit : String × String → String
  | (cid, lbl) => if lbl = "" then cid else cid ++ " (\"" ++ lbl ++ "\")"

/-- Success message of rule 2. -/
def r2OkMsg : String :=
  "✅ Rule 2 OK: no blocklisted componentId values found in shapes."

/-- Failure message of rule 2 built from the deduplicated hits: at most
five formatted pairs and a `+N more` suffix when more exist. -/
def r2FailMsg (uniq : List (String × String)) : String :=
  "❌ Rule 2 FAIL: blocklisted componentId(s) found in shapes: "
    ++ String.intercalate ", " ((uniq.take 5).map fmtHit)
    ++ (if uniq.length ≤ 5 then ""
        else " (+" ++ toString (uniq.length - 5) ++ " more)")

/-- `rule_no_blocklisted_components`: passes when no selected shape has a
blocklisted stripped componentId. -/
def rule_no_blocklisted_components (root : XElem) : Bool × String :=
  let hits := hitsOf root
  if hits = [] then (true, r2OkMsg)
  else (false, r2FailMsg (dedupFirst hits []))

/-- A per-file validation verdict, the dictionary `validate_file` builds:
path, overall pass flag, ordered messages. -/
structure ValidationResult where
  path : String
  passed : Bool
  messages : List String
deriving DecidableEq, Repr

/-- The file system as `validate_file` observes it: for each path, `none`
when the file does not exist, `some (Except.error e)` when reading or
parsing raises an exception with message `e`, `some (Except.ok root)` when
parsing yields the tree `root`. -/
def FileSys : Type :=
  String → Option (Except String XElem)

/-- `validate_file`: missing file and parse failure give a failed result
with a descriptive message; otherwise both rules run and combine. -/
def validate_file (fs : FileSys) (path : String) : ValidationResult :=
  match fs path with
  | none => ⟨path, false, ["❌ File not found."]⟩
  | some (Except.error e) => ⟨path, false, ["❌ XML parse error: " ++ e]⟩
  | some (Except.ok root) =>
      ⟨path,
       (rule_error_handling root).1 && (rule_no_blocklisted_components root).1,
       [(rule_error_handling root).2, (rule_no_blocklisted_components root).2]⟩

/-- The `### PASS/FAIL` status fragment of a file's report subsection. -/
def statusOf (r : ValidationResult) : String :=
  if r.passed then "✅ PASS" else "❌ FAIL"

/-- The lines of one file's report subsection: header, one bullet per
message, trailing blank line. -/
def fileBlock (r : ValidationResult) : List String :=
  ("### " ++ statusOf r ++ ": `" ++ r.path ++ "`")
    :: r.messages.map (fun m => "- " ++ m) ++ [""]

/-- The fixed report head: title, blank, summary line, blank. -/
def reportHead (results : List ValidationResult) : List String :=
  [ "## 🍫 Boomi XML Validation Results"
  , ""
  , "**Summary:** " ++ toString (results.filter (fun r => r.passed)).length
      ++ "/" ++ toString results.length ++ " file(s) passed."
  , "" ]

/-- The `lines` list `render_markdown` joins. -/
def render_markdown_lines (results : List ValidationResult) : List String :=
  reportHead results ++ results.flatMap fileBlock

/-- Python `str.rstrip()`: drop trailing whitespace. -/
def rstripStr (s : String) : String :=
  String.mk ((s.toList.reverse.dropWhile Char.isWhitespace).reverse)

/-- `render_markdown`: the joined lines, trailing whitespace replaced by a
single newline. -/
def render_markdown (results : List ValidationResult) : String :=
  rstripStr (String.intercalate "\n" (render_markdown_lines results)) ++ "\n"

/-- `write_step_summary`: reads `GITHUB_STEP_SUMMARY` from the
environment; when unset or empty nothing is written; otherwise the append
succeeds exactly when the file system lets it (`writeOk`), and any
exception is swallowed.  Returns whether the summary was written. -/
def write_step_summary (env : String → Option String) (writeOk : Bool) : Bool :=
  match env "GITHUB_STEP_SUMMARY" with
  | none => false
  | some s => if s = "" then false else writeOk

/-- What one run of `main` produces: the process exit code, the per-file
results in order, and whether the optional CI summary got written. -/
structure RunOutcome where
  exitCode : Nat
  results : List ValidationResult
  summaryWritten : Bool
deriving DecidableEq, Repr

/-- `main`: with no file arguments (`len(argv) < 2`) exit 2 before
processing any file; otherwise validate every argument in order and exit
1 when any result failed, 0 when all passed.  `args` is `argv[1:]`. -/
def main (fs : FileSys) (env : String → Option String) (writeOk : Bool)
    (args : List String) : RunOutcome :=
  match args with
  | [] => ⟨2, [], write_step_summary env writeOk⟩
  | _ :: _ =>
      let results := args.map (validate_file fs)
      ⟨if results.any (fun r => !r.passed) then 1 else 0,
       results,
       write_step_summary env writeOk⟩

/-! ### Concrete example documents and file systems used by witnesses and
counterexamples -/

/-- `<process><shape shapetype="returndocuments" userlabel="Error Path"/></process>`. -/
def docShapeError : XElem :=
  .mk "process" []
    (forestOf [.mk "shape" [("shapetype", "returndocuments"), ("userlabel", "Error Path")] .nil])

/-- `<process><widget shapetype="returndocuments" userlabel="Error Path"/></process>`:
the error-labeled `returndocuments` element is not tagged `shape`. -/
def docWidgetError : XElem :=
  .mk "process" []
    (forestOf [.mk "widget" [("shapetype", "returndocuments"), ("userlabel", "Error Path")] .nil])

/-- `<process><widget shapetype="returndocuments" label="Success"/></process>`:
a `returndocuments` element that is not tagged `shape` and not error-labeled. -/
def docWidgetSuccess : XElem :=
  .mk "process" []
    (forestOf [.mk "widget" [("shapetype", "returndocuments"), ("label", "Success")] .nil])

/-- A document whose only `returndocuments` shape is labeled `Success`. -/
def docShapeSuccess : XElem :=
  .mk "process" []
    (forestOf [.mk "shape" [("shapetype", "returndocuments"), ("label", "Success")] .nil])

/-- Two `returndocuments` shapes, both error-labeled: `Err A` comes first
in document order. -/
def docTwoErrShapes : XElem :=
  .mk "process" []
    (forestOf
      [ .mk "shape" [("shapetype", "returndocuments"), ("userlabel", "Error A")] .nil
      , .mk "shape" [("shapetype", "returndocuments"), ("userlabel", "Error B")] .nil ])

/-- `<process><thing componentId="ab12…"/></process>`: a blocklisted
componentId on an element not tagged `shape`. -/
def docThingBlocked : XElem :=
  .mk "process" []
    (forestOf [.mk "thing" [("componentId", "ab12cd34-5678-90ef-ghij-klmnopqrstuv")] .nil])

/-- A shape carrying a blocklisted componentId, labeled `L1`. -/
def docShapeBlocked : XElem :=
  .mk "process" []
    (forestOf
      [.mk "shape" [("componentId", "ab12cd34-5678-90ef-ghij-klmnopqrstuv"), ("userlabel", "L1")] .nil])

/-- A shape whose componentId carries surrounding whitespace around a
blocklisted identifier; a second shape repeats the same pair. -/
def docShapeBlockedWs : XElem :=
  .mk "process" []
    (forestOf
      [ .mk "shape"
          [("componentId", "  ab12cd34-5678-90ef-ghij-klmnopqrstuv "), ("userlabel", "L1")] .nil
      , .mk "shape"
          [("componentId", "ab12cd34-5678-90ef-ghij-klmnopqrstuv"), ("userlabel", "L1")] .nil ])

/-- A file system with one good file (`good.xml`), one malformed file
(`bad.xml`) and nothing else. -/
def fsSample : FileSys := fun p =>
  if p = "good.xml" then some (Except.ok docShapeError)
  else if p = "bad.xml" then some (Except.error "syntax error line 1")
  else none

/-! ### General lemmas about the traversal and the two rules -/

/-- A subtree enumerates its root first, then the proper descendants. -/
theorem subtreeElems_cons (root : XElem) :
    subtreeElems root = root :: descendantElems root := by
  cases root
  rfl

/-- The loop of rule 1 succeeds exactly when some listed shape's label
contains `error` case-insensitively. -/
theorem ruleErrorGo_fst_iff (l : List XElem) (acc : List String) :
    (ruleErrorGo l acc).1 = true ↔
      ∃ s ∈ l, strContains (lowerStr (shape_label s)) "error" = true := by
  induction l generalizing acc with
  | nil =>
      simp only [ruleErrorGo]
      split <;> simp
  | cons s rest ih =>
      by_cases h : strContains (lowerStr (shape_label s)) "error" = true
      · simp [ruleErrorGo, h]
      · simp only [ruleErrorGo, Bool.not_eq_true] at h ⊢
        simp [h, ih]

/-- The loop of rule 1 stops at the first matching shape, whatever
follows it. -/
theorem ruleErrorGo_first_match (s : XElem) (ys : List XElem) :
    ∀ (xs : List XElem) (acc : List String),
      (∀ x ∈ xs, strContains (lowerStr (shape_label x)) "error" = false) →
      strContains (lowerStr (shape_label s)) "error" = true →
      ruleErrorGo (xs ++ s :: ys) acc = (true, r1OkMsg (shape_label s)) := by
  intro xs
  induction xs with
  | nil =>
      intro acc _ hs
      simp [ruleErrorGo, hs]
  | cons x xs ih =>
      intro acc hxs hs
      have hx : strContains (lowerStr (shape_label x)) "error" = false :=
        hxs x (by simp)
      simp only [List.cons_append, ruleErrorGo, hx]
      exact ih _ (fun y hy => hxs y (by simp [hy])) hs

/-- When no listed shape matches, the loop of rule 1 fails and reports the
accumulated candidate labels in order. -/
theorem ruleErrorGo_all_fail :
    ∀ (l : List XElem) (acc : List String),
      (∀ x ∈ l, strContains (lowerStr (shape_label x)) "error" = false) →
      (acc ≠ [] ∨ l ≠ []) →
      ruleErrorGo l acc = (false, r1FoundLabelsMsg (acc.reverse ++ l.map candLabel)) := by
  intro l
  induction l with
  | nil =>
      intro acc _ hne
      have hacc : acc ≠ [] := by
        rcases hne with h | h
        · exact h
        · exact absurd rfl h
      simp [ruleErrorGo, hacc]
  | cons x xs ih =>
      intro acc hfail _
      have hx : strContains (lowerStr (shape_label x)) "error" = false :=
        hfail x (by simp)
      simp only [ruleErrorGo, hx]
      rw [ih (candLabel x :: acc) (fun y hy => hfail y (by simp [hy]))
            (Or.inl (by simp))]
      simp [List.reverse_cons, List.append_assoc]

/-- Membership in the deduplicated list: everything from the input that
was not already seen. -/
theorem mem_dedupFirst (p : String × String) :
    ∀ (l seen : List (String × String)),
      p ∈ dedupFirst l seen ↔ p ∈ l ∧ p ∉ seen := by
  intro l
  induction l with
  | nil => intro seen; simp [dedupFirst]
  | cons q rest ih =>
      intro seen
      by_cases hq : q ∈ seen
      · rw [dedupFirst, if_pos hq]
        constructor
        · intro h
          have h2 := (ih seen).1 h
          exact ⟨List.mem_cons.2 (Or.inr h2.1), h2.2⟩
        · rintro ⟨hp, hns⟩
          rcases List.mem_cons.1 hp with rfl | hp2
          · exact absurd hq hns
          · exact (ih seen).2 ⟨hp2, hns⟩
      · rw [dedupFirst, if_neg hq]
        constructor
        · intro h
          rcases List.mem_cons.1 h with rfl | h2
          · exact ⟨List.mem_cons_self _ _, hq⟩
          · have h3 := (ih (q :: seen)).1 h2
            refine ⟨List.mem_cons.2 (Or.inr h3.1), fun hs => h3.2 (List.mem_cons_of_mem _ hs)⟩
        · rintro ⟨hp, hns⟩
          rcases List.mem_cons.1 hp with rfl | hp2
          · exact List.mem_cons_self _ _
          · by_cases hpq : p = q
            · subst hpq; exact List.mem_cons_self _ _
            · refine List.mem_cons_of_mem _ ((ih (q :: seen)).2 ⟨hp2, ?_⟩)
              intro hs
              rcases List.mem_cons.1 hs with h4 | h4
              · exact hpq h4
              · exact hns h4

/-- Deduplication yields a sublist of the input: order is preserved and
nothing new appears. -/
theorem dedupFirst_sublist :
    ∀ (l seen : List (String × String)), List.Sublist (dedupFirst l seen) l := by
  intro l
  induction l with
  | nil => intro seen; simp [dedupFirst]
  | cons q rest ih =>
      intro seen
      by_cases hq : q ∈ seen
      · rw [dedupFirst, if_pos hq]
        exact (ih seen).cons q
      · rw [dedupFirst, if_neg hq]
        exact (ih (q :: seen)).cons₂ q

/-- The deduplicated list has no duplicate pairs. -/
theorem nodup_dedupFirst :
    ∀ (l seen : List (String × String)), (dedupFirst l seen).Nodup := by
  intro l
  induction l with
  | nil => intro seen; simp [dedupFirst]
  | cons q rest ih =>
      intro seen
      by_cases hq : q ∈ seen
      · rw [dedupFirst, if_pos hq]; exact ih seen
      · rw [dedupFirst, if_neg hq]
        refine List.nodup_cons.2 ⟨fun hmem => ?_, ih (q :: seen)⟩
        exact (mem_dedupFirst q rest (q :: seen)).1 hmem |>.2 (List.mem_cons_self _ _)

/-- A pair belonging to a duplicate-free list is counted exactly once
(stated for the `BEq` instance the claim statements elaborate with). -/
theorem count_eq_one_of_nodup_mem (p : String × String) :
    ∀ l : List (String × String), l.Nodup → p ∈ l → l.count p = 1 := by
  intro l
  induction l with
  | nil => intro _ hm; simp at hm
  | cons q rest ih =>
      intro hn hm
      rcases List.mem_cons.1 hm with rfl | hm2
      · rw [List.count_cons_self]
        have hz : rest.count p = 0 :=
          List.count_eq_zero.2 (List.nodup_cons.1 hn).1
        omega
      · have hq : p ≠ q := by
          rintro rfl
          exact (List.nodup_cons.1 hn).1 hm2
        rw [List.count_cons_of_ne hq]
        exact ih (List.nodup_cons.1 hn).2 hm2

/-- Rule 2 finds no hit exactly when no selected shape carries a
blocklisted stripped componentId. -/
theorem hitsOf_eq_nil_iff (root : XElem) :
    hitsOf root = [] ↔ ∀ e ∈ cidShapes root, cidOf e ∉ BLOCKLIST := by
  rw [hitsOf, List.filterMap_eq_nil_iff]
  constructor
  · intro h e he hb
    have := h e he
    rw [if_pos hb] at this
    exact Option.some_ne_none _ this
  · intro h e he
    rw [if_neg (h e he)]

/-- Every selected shape with a blocklisted stripped componentId
contributes its (identifier, label) pair to the hits. -/
theorem mem_hitsOf (root : XElem) (e : XElem)
    (he : e ∈ cidShapes root) (hb : cidOf e ∈ BLOCKLIST) :
    (cidOf e, shape_label e) ∈ hitsOf root := by
  rw [hitsOf, List.mem_filterMap]
  exact ⟨e, he, by rw [if_pos hb]⟩

/-- The boolean verdict of rule 2 is `true` exactly when there are no
hits. -/
theorem rule2_fst_iff (root : XElem) :
    (rule_no_blocklisted_components root).1 = true ↔ hitsOf root = [] := by
  by_cases h : hitsOf root = [] <;>
    simp [rule_no_blocklisted_components, h]

/-! ### Claim theorems -/

/-- C1, counterexample: the claim quantifies over elements anywhere in the
tree regardless of tag, but rule 1 only inspects elements tagged `shape`.
In `docWidgetError` a `widget` element has `shapetype='returndocuments'`
and resolved label `Error Path` (its `userlabel`), which contains `error`
case-insensitively, yet rule 1 does not pass. -/
theorem c1_counterexample :
    (∃ e ∈ subtreeElems docWidgetError,
        e.get "shapetype" = some "returndocuments"
          ∧ e.get "userlabel" = some "Error Path"
          ∧ strContains (lowerStr (shape_label e)) "error" = true)
    ∧ (rule_error_handling docWidgetError).1 = false := by
  decide

/-- C1, amended: for every document containing a proper-descendant element
tagged `shape` whose `shapetype` attribute equals `returndocuments` and
whose resolved label contains `error` case-insensitively, rule 1 returns
passed = true. -/
theorem c1_error_labeled_shape_passes (root : XElem)
    (h : ∃ s ∈ returnDocShapes root,
      strContains (lowerStr (shape_label s)) "error" = true) :
    (rule_error_handling root).1 = true := by
  simp only [rule_error_handling]
  exact (ruleErrorGo_fst_iff (returnDocShapes root) []).2 h

/-- C1, witness: `docShapeError` satisfies the hypothesis and rule 1
passes on it. -/
theorem c1_witness :
    (∃ s ∈ returnDocShapes docShapeError,
        strContains (lowerStr (shape_label s)) "error" = true)
    ∧ (rule_error_handling docShapeError).1 = true :=
  ⟨by decide, c1_error_labeled_shape_passes docShapeError (by decide)⟩

/-- C10: rule 1 short-circuits on the first matching shape in document
order; the success message quotes that shape's resolved label, and the
shapes after it (here arbitrary `ys`) have no effect on the result. -/
theorem c10_first_match_short_circuit (root : XElem) (xs : List XElem)
    (s : XElem) (ys : List XElem)
    (hsplit : returnDocShapes root = xs ++ s :: ys)
    (hxs : ∀ x ∈ xs, strContains (lowerStr (shape_label x)) "error" = false)
    (hs : strContains (lowerStr (shape_label s)) "error" = true) :
    rule_error_handling root = (true, r1OkMsg (shape_label s)) := by
  simp only [rule_error_handling, hsplit]
  exact ruleErrorGo_first_match s ys xs [] hxs hs

/-- C10, witness: on `docTwoErrShapes` both shapes match, and the reported
label is that of the first one in document order. -/
theorem c10_witness :
    rule_error_handling docTwoErrShapes = (true, r1OkMsg "Error A") :=
  c10_first_match_short_circuit docTwoErrShapes []
    (.mk "shape" [("shapetype", "returndocuments"), ("userlabel", "Error A")] .nil)
    [.mk "shape" [("shapetype", "returndocuments"), ("userlabel", "Error B")] .nil]
    rfl (by decide) (by decide)

/-- C4: a document with no `returndocuments` shapetype on any element gets
the no-shape-found variant; amended for the second half: when
`returndocuments` shapes (elements tagged `shape`) exist but none has a
label containing `error`, rule 1 fails listing the candidate labels in
document order, blank labels rendered `(no label)`. -/
theorem c4_failure_message_variants (root : XElem) :
    ((∀ e ∈ subtreeElems root, ¬ e.get "shapetype" = some "returndocuments") →
        rule_error_handling root = (false, r1NoShapeMsg))
    ∧ (returnDocShapes root ≠ [] →
        (∀ s ∈ returnDocShapes root,
          strContains (lowerStr (shape_label s)) "error" = false) →
        rule_error_handling root
          = (false, r1FoundLabelsMsg ((returnDocShapes root).map candLabel))) := by
  constructor
  · intro h
    have hnil : returnDocShapes root = [] := by
      rw [returnDocShapes, List.filter_eq_nil_iff]
      intro e he
      have h2 := h e (by rw [subtreeElems_cons]; exact List.mem_cons_of_mem _ he)
      simp [h2]
    simp [rule_error_handling, hnil, ruleErrorGo]
  · intro hne hfail
    simp only [rule_error_handling]
    rw [ruleErrorGo_all_fail _ [] hfail (Or.inr hne)]
    simp

/-- C4, counterexample: in `docWidgetSuccess` an element (not tagged
`shape`) has `shapetype='returndocuments'` and no label contains `error`,
yet rule 1 reports the no-shape-found variant, not the candidate-label
list the claim predicts. -/
theorem c4_counterexample :
    (∃ e ∈ subtreeElems docWidgetSuccess,
        e.get "shapetype" = some "returndocuments")
    ∧ (∀ e ∈ subtreeElems docWidgetSuccess,
        strContains (lowerStr (shape_label e)) "error" = false)
    ∧ rule_error_handling docWidgetSuccess = (false, r1NoShapeMsg)
    ∧ r1NoShapeMsg ≠ r1FoundLabelsMsg ["Success"] := by
  decide

/-- C4, witness: `docShapeBlocked` has no `returndocuments` shapetype and
gets the no-shape-found message; `docShapeSuccess` has one `Success`
shape and gets the candidate-label message. -/
theorem c4_witness :
    rule_error_handling docShapeBlocked = (false, r1NoShapeMsg)
    ∧ rule_error_handling docShapeSuccess = (false, r1FoundLabelsMsg ["Success"]) :=
  ⟨(c4_failure_message_variants docShapeBlocked).1 (by decide),
   (c4_failure_message_variants docShapeSuccess).2
     (by
       rw [show returnDocShapes docShapeSuccess
             = [XElem.mk "shape" [("shapetype", "returndocuments"), ("label", "Success")] XForest.nil]
           from rfl]
       exact List.cons_ne_nil _ _)
     (by decide)⟩

/-- C2, counterexample: the claim scans `componentId` on any element
anywhere, but rule 2 only inspects elements tagged `shape`.  In
`docThingBlocked` a `thing` element carries a blocklisted componentId,
yet rule 2 passes. -/
theorem c2_counterexample :
    (∃ e ∈ subtreeElems docThingBlocked,
        e.get "componentId" = some "ab12cd34-5678-90ef-ghij-klmnopqrstuv")
    ∧ "ab12cd34-5678-90ef-ghij-klmnopqrstuv" ∈ BLOCKLIST
    ∧ (rule_no_blocklisted_components docThingBlocked).1 = true := by
  decide

/-- C2, amended: rule 2 passes iff no proper-descendant element tagged
`shape` that carries a `componentId` attribute has a stripped value in
the blocklist; when such a shape exists, rule 2 fails and its
(identifier, label) pair is among the deduplicated hits the message is
built from. -/
theorem c2_blocklist_membership (root : XElem) :
    ((rule_no_blocklisted_components root).1 = true ↔
        ∀ e ∈ cidShapes root, cidOf e ∉ BLOCKLIST)
    ∧ ∀ e ∈ cidShapes root, cidOf e ∈ BLOCKLIST →
        (rule_no_blocklisted_components root).1 = false
        ∧ (cidOf e, shape_label e) ∈ dedupFirst (hitsOf root) [] := by
  constructor
  · rw [rule2_fst_iff]
    exact hitsOf_eq_nil_iff root
  · intro e he hb
    have hmem : (cidOf e, shape_label e) ∈ hitsOf root := mem_hitsOf root e he hb
    constructor
    · rw [← Bool.not_eq_true, rule2_fst_iff]
      exact fun hnil => by simp [hnil] at hmem
    · exact (mem_dedupFirst _ _ _).2 ⟨hmem, List.not_mem_nil _⟩

/-- C2, witness: on `docShapeBlocked` the shape's componentId is
blocklisted, rule 2 fails and the pair is reported; posing the passing
direction on `docShapeError`, which has no componentId at all. -/
theorem c2_witness :
    ((rule_no_blocklisted_components docShapeError).1 = true)
    ∧ (rule_no_blocklisted_components docShapeBlocked).1 = false
    ∧ ("ab12cd34-5678-90ef-ghij-klmnopqrstuv", "L1")
        ∈ dedupFirst (hitsOf docShapeBlocked) [] :=
  ⟨(c2_blocklist_membership docShapeError).1.2 (by decide),
   ((c2_blocklist_membership docShapeBlocked).2
      (.mk "shape" [("componentId", "ab12cd34-5678-90ef-ghij-klmnopqrstuv"), ("userlabel", "L1")] .nil)
      (by decide) (by decide)).1,
   ((c2_blocklist_membership docShapeBlocked).2
      (.mk "shape" [("componentId", "ab12cd34-5678-90ef-ghij-klmnopqrstuv"), ("userlabel", "L1")] .nil)
      (by decide) (by decide)).2⟩

/-- C5: when rule 2 fails, the hit pairs are deduplicated preserving
first-seen order (a nodup sublist of the hits with the same members, each
hit counted once), at most 5 pairs are formatted, and the `+N more`
suffix appears exactly when more than 5 distinct pairs exist. -/
theorem c5_dedup_and_truncation (root : XElem) (h : hitsOf root ≠ []) :
    rule_no_blocklisted_components root
      = (false,
         "❌ Rule 2 FAIL: blocklisted componentId(s) found in shapes: "
           ++ String.intercalate ", " (((dedupFirst (hitsOf root) []).take 5).map fmtHit)
           ++ (if (dedupFirst (hitsOf root) []).length ≤ 5 then ""
               else " (+" ++ toString ((dedupFirst (hitsOf root) []).length - 5) ++ " more)"))
    ∧ (dedupFirst (hitsOf root) []).Nodup
    ∧ List.Sublist (dedupFirst (hitsOf root) []) (hitsOf root)
    ∧ (∀ p, p ∈ dedupFirst (hitsOf root) [] ↔ p ∈ hitsOf root)
    ∧ ∀ p ∈ hitsOf root, (dedupFirst (hitsOf root) []).count p = 1 := by
  refine ⟨?_, nodup_dedupFirst _ _, dedupFirst_sublist _ _, ?_, ?_⟩
  · simp [rule_no_blocklisted_components, h, r2FailMsg]
  · intro p
    rw [mem_dedupFirst]
    simp
  · intro p hp
    exact count_eq_one_of_nodup_mem p _ (nodup_dedupFirst _ _)
      ((mem_dedupFirst _ _ _).2 ⟨hp, List.not_mem_nil _⟩)

/-- C5, witness: `docShapeBlockedWs` produces the same pair twice (once
with surrounding whitespace); it is reported exactly once. -/
theorem c5_witness :
    hitsOf docShapeBlockedWs
      = [ ("ab12cd34-5678-90ef-ghij-klmnopqrstuv", "L1")
        , ("ab12cd34-5678-90ef-ghij-klmnopqrstuv", "L1") ]
    ∧ (dedupFirst (hitsOf docShapeBlockedWs) []).count
        ("ab12cd34-5678-90ef-ghij-klmnopqrstuv", "L1") = 1 :=
  ⟨rfl,
   (c5_dedup_and_truncation docShapeBlockedWs
      (by
        rw [show hitsOf docShapeBlockedWs
              = [ ("ab12cd34-5678-90ef-ghij-klmnopqrstuv", "L1")
                , ("ab12cd34-5678-90ef-ghij-klmnopqrstuv", "L1") ]
            from rfl]
        exact List.cons_ne_nil _ _)).2.2.2.2
     ("ab12cd34-5678-90ef-ghij-klmnopqrstuv", "L1") (by decide)⟩

/-- C9: rule 2 strips the raw componentId before the blocklist test — a
raw value whose stripped form is blocklisted counts as a hit, and the
stripped identifier is the one recorded and reported. -/
theorem c9_componentId_stripped (root : XElem) (e : XElem) (raw : String)
    (he : e ∈ cidShapes root) (hc : e.get "componentId" = some raw)
    (hb : strip raw ∈ BLOCKLIST) :
    cidOf e = strip raw
    ∧ (rule_no_blocklisted_components root).1 = false
    ∧ (strip raw, shape_label e) ∈ dedupFirst (hitsOf root) [] := by
  have hcid : cidOf e = strip raw := by
    rw [cidOf, hc, pyOr]
    by_cases hraw : raw = ""
    · rw [if_pos hraw, hraw]
    · rw [if_neg hraw]
  refine ⟨hcid, ?_, ?_⟩
  · have hmem : (cidOf e, shape_label e) ∈ hitsOf root :=
      mem_hitsOf root e he (hcid ▸ hb)
    rw [← Bool.not_eq_true, rule2_fst_iff]
    exact fun hnil => by simp [hnil] at hmem
  · rw [← hcid]
    exact (mem_dedupFirst _ _ _).2
      ⟨mem_hitsOf root e he (hcid ▸ hb), List.not_mem_nil _⟩

/-- C9, witness: the first shape of `docShapeBlockedWs` carries the
blocklisted identifier with surrounding whitespace and is still a
reported hit. -/
theorem c9_witness :
    (rule_no_blocklisted_components docShapeBlockedWs).1 = false
    ∧ ("ab12cd34-5678-90ef-ghij-klmnopqrstuv", "L1")
        ∈ dedupFirst (hitsOf docShapeBlockedWs) [] :=
  ⟨(c9_componentId_stripped docShapeBlockedWs
      (.mk "shape" [("componentId", "  ab12cd34-5678-90ef-ghij-klmnopqrstuv "), ("userlabel", "L1")] .nil)
      "  ab12cd34-5678-90ef-ghij-klmnopqrstuv " (by decide) (by decide) (by decide)).2.1,
   (c9_componentId_stripped docShapeBlockedWs
      (.mk "shape" [("componentId", "  ab12cd34-5678-90ef-ghij-klmnopqrstuv "), ("userlabel", "L1")] .nil)
      "  ab12cd34-5678-90ef-ghij-klmnopqrstuv " (by decide) (by decide) (by decide)).2.2⟩

/-- C3: with zero file arguments the exit code is 2 and no file is
processed; with at least one argument the exit code is 0 iff every
result passed and 1 iff some result failed. -/
theorem c3_exit_codes (fs : FileSys) (env : String → Option String) (wo : Bool)
    (args : List String) :
    (args = [] →
        (main fs env wo args).exitCode = 2 ∧ (main fs env wo args).results = [])
    ∧ (args ≠ [] →
        (((main fs env wo args).exitCode = 0 ↔
            ∀ r ∈ (main fs env wo args).results, r.passed = true)
        ∧ ((main fs env wo args).exitCode = 1 ↔
            ∃ r ∈ (main fs env wo args).results, r.passed = false))) := by
  cases args with
  | nil =>
      exact ⟨fun _ => ⟨rfl, rfl⟩, fun h => absurd rfl h⟩
  | cons a as =>
      refine ⟨fun h => by simp at h, fun _ => ?_⟩
      have hres : (main fs env wo (a :: as)).results
          = (a :: as).map (validate_file fs) := rfl
      have hexit : (main fs env wo (a :: as)).exitCode
          = if ((a :: as).map (validate_file fs)).any (fun r => !r.passed)
            then 1 else 0 := rfl
      by_cases hany :
          ((a :: as).map (validate_file fs)).any (fun r => !r.passed) = true
      · rcases List.any_eq_true.1 hany with ⟨r, hr, hb⟩
        have hex : ∃ x ∈ (main fs env wo (a :: as)).results, x.passed = false := by
          rw [hres]
          exact ⟨r, hr, by simpa using hb⟩
        rw [hexit, if_pos hany]
        constructor
        · constructor
          · intro h; exact absurd h (by decide)
          · intro hall
            rcases hex with ⟨x, hx, hxf⟩
            have := hall x hx
            rw [this] at hxf
            exact absurd hxf (by decide)
        · exact ⟨fun _ => hex, fun _ => rfl⟩
      · have hall : ∀ x ∈ (main fs env wo (a :: as)).results, x.passed = true := by
          rw [hres]
          intro x hx
          by_contra hxf
          exact hany (List.any_eq_true.2 ⟨x, hx, by simp [hxf]⟩)
        rw [hexit, if_neg hany]
        constructor
        · exact ⟨fun _ => hall, fun _ => rfl⟩
        · constructor
          · intro h; exact absurd h (by decide)
          · rintro ⟨x, hx, hxf⟩
            have := hall x hx
            rw [this] at hxf
            exact absurd hxf (by decide)

/-- C3, witness: on `fsSample`, zero arguments exit with 2, and the run
over the single passing file `good.xml` exits with 0. -/
theorem c3_witness :
    ((main fsSample (fun _ => none) true []).exitCode = 2
      ∧ (main fsSample (fun _ => none) true []).results = [])
    ∧ ((main fsSample (fun _ => none) true ["good.xml"]).exitCode = 0 ↔
        ∀ r ∈ (main fsSample (fun _ => none) true ["good.xml"]).results,
          r.passed = true) :=
  ⟨(c3_exit_codes fsSample (fun _ => none) true []).1 rfl,
   ((c3_exit_codes fsSample (fun _ => none) true ["good.xml"]).2 (by decide)).1⟩

/-- C6: a successfully parsed file's result has passed = rule 1 AND
rule 2 and messages = [rule-1 message, rule-2 message] in that order, and
the run's results and rendered subsections follow the argument order. -/
theorem c6_result_and_report_order (fs : FileSys) (env : String → Option String)
    (wo : Bool) (args : List String) (path : String) (root : XElem)
    (hargs : args ≠ []) (hp : fs path = some (Except.ok root)) :
    ((validate_file fs path).passed
        = ((rule_error_handling root).1 && (rule_no_blocklisted_components root).1)
      ∧ (validate_file fs path).messages
        = [(rule_error_handling root).2, (rule_no_blocklisted_components root).2])
    ∧ ((main fs env wo args).results = args.map (validate_file fs)
      ∧ render_markdown_lines ((main fs env wo args).results)
          = reportHead (args.map (validate_file fs))
            ++ (args.map (validate_file fs)).flatMap fileBlock) := by
  constructor
  · simp [validate_file, hp]
  · cases args with
    | nil => exact absurd rfl hargs
    | cons a as => exact ⟨rfl, rfl⟩

/-- C6, witness: the good file of `fsSample` passes both rules and the
one-file run reports it in position. -/
theorem c6_witness :
    ((validate_file fsSample "good.xml").passed
        = ((rule_error_handling docShapeError).1
            && (rule_no_blocklisted_components docShapeError).1)
      ∧ (validate_file fsSample "good.xml").messages
        = [(rule_error_handling docShapeError).2,
           (rule_no_blocklisted_components docShapeError).2])
    ∧ (main fsSample (fun _ => none) true ["good.xml"]).results
        = ["good.xml"].map (validate_file fsSample) :=
  ⟨(c6_result_and_report_order fsSample (fun _ => none) true ["good.xml"]
      "good.xml" docShapeError (by decide) rfl).1,
   (c6_result_and_report_order fsSample (fun _ => none) true ["good.xml"]
      "good.xml" docShapeError (by decide) rfl).2.1⟩

/-- C7: a missing or unparseable file yields a failed result with the
descriptive message (embedding the parse error), and the results of the
other supplied files are exactly what they would be without it: the run
is a pointwise map over the argument list. -/
theorem c7_failing_file_isolated (fs : FileSys) (p : String)
    (h : fs p = none ∨ ∃ e, fs p = some (Except.error e)) :
    (validate_file fs p).passed = false
    ∧ (fs p = none → (validate_file fs p).messages = ["❌ File not found."])
    ∧ (∀ e, fs p = some (Except.error e) →
        (validate_file fs p).messages = ["❌ XML parse error: " ++ e])
    ∧ ∀ xs ys : List String,
        (xs ++ p :: ys).map (validate_file fs)
          = xs.map (validate_file fs)
            ++ validate_file fs p :: ys.map (validate_file fs) := by
  refine ⟨?_, ?_, ?_, ?_⟩
  · rcases h with h0 | ⟨e, he⟩ <;> simp [validate_file, *]
  · intro h0; simp [validate_file, h0]
  · intro e he; simp [validate_file, he]
  · intro xs ys; simp

/-- C7, witness: in `fsSample`, `missing.xml` does not exist and
`bad.xml` fails to parse; both yield failed results and the surrounding
files are mapped unchanged. -/
theorem c7_witness :
    (validate_file fsSample "missing.xml").passed = false
    ∧ (validate_file fsSample "missing.xml").messages = ["❌ File not found."]
    ∧ (validate_file fsSample "bad.xml").messages
        = ["❌ XML parse error: syntax error line 1"]
    ∧ (["good.xml"] ++ "missing.xml" :: ["bad.xml"]).map (validate_file fsSample)
        = ["good.xml"].map (validate_file fsSample)
          ++ validate_file fsSample "missing.xml"
            :: ["bad.xml"].map (validate_file fsSample) :=
  ⟨(c7_failing_file_isolated fsSample "missing.xml" (Or.inl rfl)).1,
   (c7_failing_file_isolated fsSample "missing.xml" (Or.inl rfl)).2.1 rfl,
   (c7_failing_file_isolated fsSample "bad.xml"
      (Or.inr ⟨"syntax error line 1", rfl⟩)).2.2.1 "syntax error line 1" rfl,
   (c7_failing_file_isolated fsSample "missing.xml" (Or.inl rfl)).2.2.2
      ["good.xml"] ["bad.xml"]⟩

/-- C8: the optional CI-summary write never influences the exit code or
the per-file results — they are identical under any environment and any
write success — and nothing is written when the variable is unset. -/
theorem c8_summary_write_isolated (fs : FileSys) (args : List String)
    (env env2 : String → Option String) (wo wo2 : Bool) :
    ((main fs env wo args).exitCode = (main fs env2 wo2 args).exitCode
      ∧ (main fs env wo args).results = (main fs env2 wo2 args).results)
    ∧ (env "GITHUB_STEP_SUMMARY" = none →
        (main fs env wo args).summaryWritten = false) := by
  constructor
  · cases args with
    | nil => exact ⟨rfl, rfl⟩
    | cons a as => exact ⟨rfl, rfl⟩
  · intro h
    cases args with
    | nil => simp [main, write_step_summary, h]
    | cons a as => simp [main, write_step_summary, h]

/-- C8, witness: a run with the summary variable unset and a run with it
set and a failing write agree on exit code and results, and the first
writes nothing. -/
theorem c8_witness :
    ((main fsSample (fun _ => none) true ["good.xml"]).exitCode
        = (main fsSample (fun _ => some "summary.md") false ["good.xml"]).exitCode
      ∧ (main fsSample (fun _ => none) true ["good.xml"]).results
        = (main fsSample (fun _ => some "summary.md") false ["good.xml"]).results)
    ∧ (main fsSample (fun _ => none) true ["good.xml"]).summaryWritten = false :=
  ⟨(c8_summary_write_isolated fsSample ["good.xml"]
      (fun _ => none) (fun _ => some "summary.md") true false).1,
   (c8_summary_write_isolated fsSample ["good.xml"]
      (fun _ => none) (fun _ => some "summary.md") true false).2 rfl⟩

end BoomiValidate
